import Mathlib

/-!
Verification of the WebWeaver studio core against its specification.

The definitions below are a shallow embedding of the C++ sources:

* `Json` models the subset of `nlohmann::json` values the studio core
  manipulates (objects are association lists; all claims are stated via
  key lookup, so member ordering inside an object is irrelevant).
* `StudioSolution.ToJson` / `StudioSolution.FromJson` embed
  `src/studio/StudioSolution.cpp` lines 31-81.
* `RecordingSession.Start` / `AppendEvent` / `Stop` embed the
  `RecordingSession` translation unit (the variant with `AppendEvent`,
  UUID ids and `FlushToDisk`).  External effects are explicit inputs:
  wall-clock strings, monotonic-clock readings, random draws for the
  UUID generator, and a flag for whether opening the output file
  succeeds.  The disk is an association list from paths to the JSON
  document last written there.
* `StudioStateController` embeds `StudioStateController.cpp`; the
  observer callback is modelled as an appended notification log.
* `RecentSolutionsManager` operations embed
  `RecentSolutionsManager.cpp`; a C++ exception escaping a function is
  modelled as `Except.error`.
-/

/-- Model of an `nlohmann::json` value.  Numbers are restricted to
integers, which is every number the studio core reads or writes. -/
inductive Json where
  | null : Json
  | bool : Bool → Json
  | num : Int → Json
  | str : String → Json
  | arr : List Json → Json
  | obj : List (String × Json) → Json

/-- First-match lookup in an object member list, as `json::operator[]`
on a present key or `json::contains`. -/
def lookupField : List (String × Json) → String → Option Json
  | [], _ => none
  | (k, v) :: rest, key => if k = key then some v else lookupField rest key

/-- Replace the value of a key if present, otherwise insert the member.
This models assignment through `json::operator[]`. -/
def setField : List (String × Json) → String → Json → List (String × Json)
  | [], key, v => [(key, v)]
  | (k, w) :: rest, key, v =>
      if k = key then (key, v) :: rest else (k, w) :: setField rest key v

/-- Member lookup on a JSON value (`none` when the value is not an
object or the key is absent). -/
def Json.find? : Json → String → Option Json
  | .obj fs, key => lookupField fs key
  | _, _ => none

/-- `json::contains`. -/
def Json.containsKey (j : Json) (key : String) : Bool := (j.find? key).isSome

/-- `json::is_object`. -/
def Json.isObj : Json → Bool
  | .obj _ => true
  | _ => false

/-- `json::is_number_integer`. -/
def Json.isInt : Json → Bool
  | .num _ => true
  | _ => false

/-- `json::is_string`. -/
def Json.isStr : Json → Bool
  | .str _ => true
  | _ => false

/-- `value.get<int>()` on a value already checked to be an integer. -/
def Json.asIntD : Json → Int
  | .num n => n
  | _ => 0

/-- Read a member that is known to exist, as `j["key"]` on a const
value after a successful `contains` check. -/
def Json.getOrNull (j : Json) (key : String) : Json := (j.find? key).getD .null

/-- `json::push_back`: appends to an array, turns `null` into a
one-element array, and throws (`none`) on any other value kind. -/
def Json.pushBack : Json → Json → Option Json
  | .arr xs, x => some (.arr (xs ++ [x]))
  | .null, x => some (.arr [x])
  | _, _ => none

section SolutionSerialization

/-- `SolutionLoadError` from `StudioSolution.h`. -/
inductive SolutionLoadError where
  | None
  | FileMalformed
  | MissingVersion
  | UnsupportedVersion
  | MissingSolutionObject
  | MissingRequiredField
  deriving DecidableEq

/-- The solution descriptor (`struct StudioSolution`), restricted to its
five stored fields. -/
structure StudioSolution where
  solutionName : String
  solutionDirectory : String
  createDirectoryForSolution : Bool
  baseUrl : String
  selectedBrowser : String
  deriving DecidableEq

/-- `SolutionLoadResult` from `StudioSolution.h`: an optional descriptor
plus a typed error. -/
structure SolutionLoadResult where
  solution : Option StudioSolution
  error : SolutionLoadError
  deriving DecidableEq

/-- A C++ exception escaping one of the embedded functions. -/
inductive CppException where
  | parseError
  | typeError
  deriving DecidableEq

/-- `StudioSolution::ToJson` (StudioSolution.cpp lines 31-42). -/
def StudioSolution.ToJson (s : StudioSolution) : Json :=
  .obj [("version", .num 1),
        ("solution", .obj
          [("solutionName", .str s.solutionName),
           ("solutionDirectory", .str s.solutionDirectory),
           ("solutionDirectoryCreated", .bool s.createDirectoryForSolution),
           ("baseUrl", .str s.baseUrl),
           ("browser", .str s.selectedBrowser)])]

/-- `value.get<std::string>()`: throws a type error unless the value is
a string. -/
def Json.getString : Json → Except CppException String
  | .str s => .ok s
  | _ => .error .typeError

/-- `value.get<bool>()`: throws a type error unless the value is a
boolean. -/
def Json.getBool : Json → Except CppException Bool
  | .bool b => .ok b
  | _ => .error .typeError

/-- `StudioSolution::FromJson` (StudioSolution.cpp lines 44-81).  The
required solution fields are checked for presence only; reading a
present field of the wrong type throws, modelled by `Except.error`.
The version read is `int version = get<int>()`, an unchecked narrowing
of the stored integer to 32 bits; the low 32 bits equal the two's
complement representation of 1 exactly when the stored value is
congruent to 1 modulo `2 ^ 32`, so `version != 1` is modelled as that
congruence failing. -/
def StudioSolution.FromJson (j : Json) : Except CppException SolutionLoadResult :=
  if ¬ j.isObj then
    .ok ⟨none, .FileMalformed⟩
  else if ¬ j.containsKey "version" then
    .ok ⟨none, .MissingVersion⟩
  else if ¬ (j.getOrNull "version").isInt then
    .ok ⟨none, .FileMalformed⟩
  else if (j.getOrNull "version").asIntD % 2 ^ 32 ≠ 1 then
    .ok ⟨none, .UnsupportedVersion⟩
  else if ¬ (j.containsKey "solution" ∧ (j.getOrNull "solution").isObj) then
    .ok ⟨none, .MissingSolutionObject⟩
  else
    let s := j.getOrNull "solution"
    if ¬ (s.containsKey "solutionName" ∧ s.containsKey "solutionDirectory" ∧
          s.containsKey "solutionDirectoryCreated" ∧ s.containsKey "baseUrl" ∧
          s.containsKey "browser") then
      .ok ⟨none, .MissingRequiredField⟩
    else do
      let nm ← (s.getOrNull "solutionName").getString
      let dir ← (s.getOrNull "solutionDirectory").getString
      let created ← (s.getOrNull "solutionDirectoryCreated").getBool
      let url ← (s.getOrNull "baseUrl").getString
      let browser ← (s.getOrNull "browser").getString
      .ok ⟨some ⟨nm, dir, created, url, browser⟩, .None⟩

end SolutionSerialization

/-- C3: deserializing the JSON produced by `ToJson` via `FromJson`
succeeds with error `None` and returns a descriptor with the same five
fields. -/
theorem solution_tojson_fromjson_roundtrip (s : StudioSolution) :
    StudioSolution.FromJson s.ToJson =
      Except.ok ⟨some s, SolutionLoadError.None⟩ := rfl

section RecordingEngine

/-- `RecordingEventType` from RecordingEventType.h. -/
inductive RecordingEventType where
  | NavGoto
  | DomClick
  | Wait
  | Unknown
  deriving DecidableEq

/-- `EventTypeToString` from the RecordingEventType translation unit. -/
def EventTypeToString : RecordingEventType → String
  | .NavGoto => "nav.goto"
  | .DomClick => "dom.click"
  | .Wait => "wait"
  | _ => "unknown"

/-- `a & 0xFFFFFFFFFFFF0FFF | 0x4000` on a 64-bit value: bits 12..15
are cleared (`a - a % 2^16 / 2^12` nibble) and bit 14 is set, written
arithmetically because the mask splits the value at bits 16 and 12. -/
def uuidMaskA (a : Nat) : Nat := (a / 2 ^ 16) * 2 ^ 16 + 0x4000 + a % 2 ^ 12

/-- `b & 0x3FFFFFFFFFFFFFFF | 0x8000000000000000` on a 64-bit value:
keep the low 62 bits and set bit 63. -/
def uuidMaskB (b : Nat) : Nat := 2 ^ 63 + b % 2 ^ 62

/-- Lower-case hexadecimal digit, as produced by `std::hex`. -/
def hexDigitChar (n : Nat) : Char :=
  if n < 10 then Char.ofNat (48 + n) else Char.ofNat (87 + n)

/-- The fixed-width zero-padded hexadecimal rendering produced by
`std::hex << std::setfill(48) << std::setw(w)` for a value below
`16 ^ w`, most significant nibble first. -/
def toHexNibbles : Nat → Nat → List Char
  | 0, _ => []
  | w + 1, v => hexDigitChar ((v >>> (4 * w)) % 16) :: toHexNibbles w v

/-- `GenerateUuidV4` (UUID translation unit, lines 110-135).  The two
raw 64-bit draws of the `mt19937_64` generator are explicit inputs; the
version and variant bits are forced and the result is formatted as
8-4-4-4-12 lower-case hex groups. -/
def GenerateUuidV4 (ra rb : Nat) : String :=
  let a := uuidMaskA (ra % 2 ^ 64)
  let b := uuidMaskB (rb % 2 ^ 64)
  String.mk (toHexNibbles 8 (a >>> 32) ++
    '-' :: toHexNibbles 4 ((a >>> 16) % 2 ^ 16) ++
    '-' :: toHexNibbles 4 (a % 2 ^ 16) ++
    '-' :: toHexNibbles 4 (b >>> 48) ++
    '-' :: toHexNibbles 12 (b % 2 ^ 48))

/-- Join of `std::filesystem::path::operator/`. -/
def pathAppend (a b : String) : String := a ++ "/" ++ b

/-- `StudioSolution::GetSolutionDirectory`. -/
def StudioSolution.GetSolutionDirectory (s : StudioSolution) : String :=
  if s.createDirectoryForSolution then
    pathAppend s.solutionDirectory s.solutionName
  else
    s.solutionDirectory

/-- `StudioSolution::GetRecordingsDirectory`. -/
def StudioSolution.GetRecordingsDirectory (s : StudioSolution) : String :=
  pathAppend s.GetSolutionDirectory "recordings"

/-- The mutable fields of `class RecordingSession` plus the solution
reference it is constructed with.  `nextIndex` holds the value of the
`uint32_t nextIndex_` register: every write reduces modulo `2 ^ 32`
(`Start` stores 0, `AppendEvent` post-increments with wrap-around). -/
structure RecordingSession where
  solution : StudioSolution
  active : Bool
  filePath : String
  recordingJson : Json
  nextIndex : Nat
  startTime : Nat

/-- The disk, mapping each file path to the JSON document last written
there (every write truncates and rewrites the whole file). -/
def Disk := List (String × Json)

/-- Overwrite (or create) the file at a path. -/
def diskWrite (d : Disk) (p : String) (j : Json) : Disk := setField d p j

/-- Content of the file at a path, if it exists. -/
def diskRead (d : Disk) (p : String) : Option Json := lookupField d p

/-- The environment of one `Start` call: the two wall-clock strings
(`NowUtcIso` is called once for the filename and once for `createdAt`),
the two random draws feeding `GenerateUuidV4`, whether opening the
output file succeeds, and the monotonic-clock reading. -/
structure StartEnv where
  nowIsoFilename : String
  nowIsoCreated : String
  uuidA : Nat
  uuidB : Nat
  openOk : Bool
  clockNow : Nat

/-- `RecordingSession::Start` (lines 92-130 of the RecordingSession
translation unit).  Note that the initial document stores an empty
`steps` array.  When the session is already active nothing is touched;
when opening the file fails, `filePath_` and `recordingJson_` have
already been assigned but the session stays inactive, exactly as in the
source. -/
def RecordingSession.Start (st : RecordingSession × Disk) (name : String)
    (env : StartEnv) : Bool × RecordingSession × Disk :=
  if st.1.active then (false, st)
  else
    let s := st.1
    let filename := name ++ "_" ++ env.nowIsoFilename ++ ".wwrec"
    let fp := pathAppend s.solution.GetRecordingsDirectory filename
    let id := GenerateUuidV4 env.uuidA env.uuidB
    let doc : Json := .obj
      [("version", .num 1),
       ("recording", .obj
         [("id", .str id),
          ("name", .str name),
          ("createdAt", .str env.nowIsoCreated),
          ("browser", .str s.solution.selectedBrowser),
          ("baseUrl", .str s.solution.baseUrl),
          ("steps", .arr [])])]
    let s1 := { s with filePath := fp, recordingJson := doc }
    if ¬ env.openOk then (false, s1, st.2)
    else
      (true,
       { s1 with active := true, nextIndex := 0, startTime := env.clockNow },
       diskWrite st.2 fp doc)

/-- `RecordingSession::Stop`: when active, rewrite the file (silently
skipping the write if the file cannot be opened) and become idle. -/
def RecordingSession.Stop (st : RecordingSession × Disk) (openOk : Bool) :
    RecordingSession × Disk :=
  if ¬ st.1.active then st
  else
    ({ st.1 with active := false },
     if openOk then diskWrite st.2 st.1.filePath st.1.recordingJson else st.2)

/-- `recordingJson_["recording"]["events"].push_back(ev)`: walk to the
`recording` member (created as a fresh object when the key is absent),
then push onto its `events` member.  `none` models the `type_error`
exception `operator[]` or `push_back` would throw on a value of the
wrong kind, which no reachable document triggers. -/
def appendEventToDoc (doc : Json) (ev : Json) : Option Json :=
  match doc with
  | .obj fs =>
    match (lookupField fs "recording").getD .null with
    | .obj rfs =>
      match ((lookupField rfs "events").getD .null).pushBack ev with
      | some evs =>
          some (.obj (setField fs "recording" (.obj (setField rfs "events" evs))))
      | none => none
    | .null =>
      some (.obj (setField fs "recording" (.obj [("events", .arr [ev])])))
    | _ => none
  | _ => none

/-- The inputs of one `AppendEvent` call: the event type and payload,
the monotonic-clock reading, and whether the flush can open the file. -/
structure AppendInput where
  type : RecordingEventType
  payload : Json
  clockNow : Nat
  openOk : Bool

/-- The event object one `AppendEvent` call builds: monotonic index,
milliseconds elapsed since the session start, type string and
payload. -/
def eventJsonFor (s : RecordingSession) (inp : AppendInput) : Json :=
  .obj [("index", .num s.nextIndex),
        ("timestamp", .num (inp.clockNow - s.startTime)),
        ("type", .str (EventTypeToString inp.type)),
        ("payload", inp.payload)]

/-- `RecordingSession::AppendEvent` (lines 145-180): no-op when idle;
otherwise build the event object with the next index and the elapsed
milliseconds, push it onto the in-memory events array and flush the
whole document (a failed open skips the write silently).  `none` is the
exception path of the JSON mutation, unreachable from `Start`.  The
`nextIndex` field models the `uint32_t nextIndex_` register: the
post-increment of `event.index = nextIndex_++` wraps at `2 ^ 32`, so
the stored value never leaves `0 .. 2 ^ 32 - 1`. -/
def RecordingSession.AppendEvent (st : RecordingSession × Disk)
    (inp : AppendInput) : Option (RecordingSession × Disk) :=
  if ¬ st.1.active then some st
  else
    let s := st.1
    let ev : Json := eventJsonFor s inp
    match appendEventToDoc s.recordingJson ev with
    | some doc =>
      let s1 := { s with
                    recordingJson := doc,
                    nextIndex := (s.nextIndex + 1) % 2 ^ 32 }
      some (s1, if inp.openOk then diskWrite st.2 s.filePath doc else st.2)
    | none => none

/-- A sequence of `AppendEvent` calls, failing as soon as one throws. -/
def appendEvents (st : RecordingSession × Disk) (inputs : List AppendInput) :
    Option (RecordingSession × Disk) :=
  match inputs with
  | [] => some st
  | inp :: rest => do appendEvents (← RecordingSession.AppendEvent st inp) rest

end RecordingEngine

/-- A concrete solution descriptor used to evaluate the engine. -/
def demoSolution : StudioSolution :=
  ⟨"Demo", "/tmp/x", true, "http://example.test", "firefox"⟩

/-- A freshly constructed, idle recording session over `demoSolution`. -/
def idleSession : RecordingSession :=
  ⟨demoSolution, false, "", .null, 0, 0⟩

/-- A concrete environment for a successful `Start` call. -/
def demoEnv : StartEnv :=
  ⟨"2025-01-01T00:00:00Z", "2025-01-01T00:00:00Z", 0, 0, true, 100⟩

/-- The state reached by `Start` from the idle session on an empty
disk. -/
def demoStarted : Bool × RecordingSession × Disk :=
  RecordingSession.Start (idleSession, ([] : Disk)) "Run1" demoEnv

/-- C5: on a successful `Start`, the document written to the recording
file carries `version` 1 and a recording object with the expected id,
name, createdAt, browser and baseUrl members — but its array of events
is stored under the key `steps`, and no `events` member exists at all,
contradicting the claimed `events: []`.  (`AppendEvent` in the same
class appends under `events`, so the `steps` member written here is
never read or extended by anything.) -/
theorem start_initial_document_has_steps_not_events :
    demoStarted.1 = true ∧
    diskRead demoStarted.2.2 demoStarted.2.1.filePath =
      some demoStarted.2.1.recordingJson ∧
    demoStarted.2.1.recordingJson.find? "version" = some (.num 1) ∧
    (demoStarted.2.1.recordingJson.getOrNull "recording").find? "id" =
      some (.str (GenerateUuidV4 0 0)) ∧
    (demoStarted.2.1.recordingJson.getOrNull "recording").find? "name" =
      some (.str "Run1") ∧
    (demoStarted.2.1.recordingJson.getOrNull "recording").find? "createdAt" =
      some (.str "2025-01-01T00:00:00Z") ∧
    (demoStarted.2.1.recordingJson.getOrNull "recording").find? "browser" =
      some (.str "firefox") ∧
    (demoStarted.2.1.recordingJson.getOrNull "recording").find? "baseUrl" =
      some (.str "http://example.test") ∧
    (demoStarted.2.1.recordingJson.getOrNull "recording").find? "steps" =
      some (.arr []) ∧
    (demoStarted.2.1.recordingJson.getOrNull "recording").find? "events" =
      none :=
  ⟨rfl, rfl, rfl, rfl, rfl, rfl, rfl, rfl, rfl, rfl⟩

/-- The state after `Start`, zero `AppendEvent` calls and `Stop`. -/
def demoZeroEventRun : RecordingSession × Disk :=
  RecordingSession.Stop demoStarted.2 true

/-- C1 counterexample (N = 0): after a successful `Start` followed by
zero `AppendEvent` calls and `Stop`, the persisted document exists but
its recording object has no `events` member, so it does not contain an
events array with exactly 0 entries. -/
theorem zero_appends_persist_no_events_array :
    (diskRead demoZeroEventRun.2 demoZeroEventRun.1.filePath).isSome = true ∧
    (((diskRead demoZeroEventRun.2 demoZeroEventRun.1.filePath).getD .null).getOrNull
        "recording").find? "events" = none :=
  ⟨rfl, rfl⟩

section UuidLemmas

/-- Numeric value of a lower-case hexadecimal digit character. -/
def hexVal (c : Char) : Nat :=
  if 87 ≤ c.toNat then c.toNat - 87 else c.toNat - 48

/-- Big-endian value of a list of hexadecimal digit characters. -/
def fromNibbles : List Char → Nat
  | [] => 0
  | c :: rest => hexVal c * 16 ^ rest.length + fromNibbles rest

theorem toHexNibbles_length (w v : Nat) : (toHexNibbles w v).length = w := by
  induction w generalizing v with
  | zero => rfl
  | succ w ih => simp [toHexNibbles, ih]

theorem hexVal_hexDigitChar (n : Nat) (h : n < 16) :
    hexVal (hexDigitChar n) = n := by
  interval_cases n <;> rfl

theorem fromNibbles_toHexNibbles (w v : Nat) :
    fromNibbles (toHexNibbles w v) = v % 16 ^ w := by
  induction w generalizing v with
  | zero => simp [toHexNibbles, fromNibbles, Nat.mod_one]
  | succ w ih =>
    have hlt : (v >>> (4 * w)) % 16 < 16 := Nat.mod_lt _ (by norm_num)
    have step : fromNibbles (toHexNibbles (w + 1) v) =
        ((v >>> (4 * w)) % 16) * 16 ^ w + v % 16 ^ w := by
      simp [toHexNibbles, fromNibbles, toHexNibbles_length,
            hexVal_hexDigitChar _ hlt, ih]
    rw [step, Nat.shiftRight_eq_div_pow]
    have h16 : (16 : Nat) ^ w = 2 ^ (4 * w) := by
      rw [show (16 : Nat) = 2 ^ 4 by norm_num, ← pow_mul]
    rw [pow_succ, Nat.mod_mul, ← h16]
    ring

theorem toHexNibbles_inj {w v v' : Nat} (hv : v < 16 ^ w) (hv' : v' < 16 ^ w)
    (h : toHexNibbles w v = toHexNibbles w v') : v = v' := by
  have h2 := congrArg fromNibbles h
  rw [fromNibbles_toHexNibbles, fromNibbles_toHexNibbles,
      Nat.mod_eq_of_lt hv, Nat.mod_eq_of_lt hv'] at h2
  exact h2

theorem append_cons_inj {α : Type} {a c : List α} {x : α} {b d : List α}
    (h : a ++ x :: b = c ++ x :: d) (hl : a.length = c.length) :
    a = c ∧ b = d := by
  obtain ⟨h1, h2⟩ := List.append_inj h hl
  exact ⟨h1, by simpa using h2⟩

theorem uuidMaskA_lt {a : Nat} (h : a < 2 ^ 64) : uuidMaskA a < 2 ^ 64 := by
  unfold uuidMaskA; omega

theorem uuidMaskB_lt (b : Nat) : uuidMaskB b < 2 ^ 64 := by
  unfold uuidMaskB; omega

/-- Two generated UUID strings are equal only when the masked random
draws coincide: the 8-4-4-4-12 rendering is injective. -/
theorem GenerateUuidV4_inj {ra rb ra' rb' : Nat}
    (h : GenerateUuidV4 ra rb = GenerateUuidV4 ra' rb') :
    uuidMaskA (ra % 2 ^ 64) = uuidMaskA (ra' % 2 ^ 64) ∧
    uuidMaskB (rb % 2 ^ 64) = uuidMaskB (rb' % 2 ^ 64) := by
  have ha : uuidMaskA (ra % 2 ^ 64) < 2 ^ 64 :=
    uuidMaskA_lt (Nat.mod_lt _ (by norm_num))
  have ha' : uuidMaskA (ra' % 2 ^ 64) < 2 ^ 64 :=
    uuidMaskA_lt (Nat.mod_lt _ (by norm_num))
  have hb : uuidMaskB (rb % 2 ^ 64) < 2 ^ 64 := uuidMaskB_lt _
  have hb' : uuidMaskB (rb' % 2 ^ 64) < 2 ^ 64 := uuidMaskB_lt _
  set a := uuidMaskA (ra % 2 ^ 64) with hadef
  set a' := uuidMaskA (ra' % 2 ^ 64) with hadef'
  set b := uuidMaskB (rb % 2 ^ 64) with hbdef
  set b' := uuidMaskB (rb' % 2 ^ 64) with hbdef'
  simp only [GenerateUuidV4] at h
  have hL := congrArg String.data h
  simp only at hL
  obtain ⟨hp4, e5⟩ := append_cons_inj hL (by simp [toHexNibbles_length])
  obtain ⟨hp3, e4⟩ := append_cons_inj hp4 (by simp [toHexNibbles_length])
  obtain ⟨hp2, e3⟩ := append_cons_inj hp3 (by simp [toHexNibbles_length])
  obtain ⟨e1, e2⟩ := append_cons_inj hp2 (by simp [toHexNibbles_length])
  have f1 : a >>> 32 = a' >>> 32 := by
    refine toHexNibbles_inj ?_ ?_ e1 <;>
      · rw [Nat.shiftRight_eq_div_pow]; norm_num; omega
  have f2 : (a >>> 16) % 2 ^ 16 = (a' >>> 16) % 2 ^ 16 := by
    refine toHexNibbles_inj ?_ ?_ e2 <;>
      · norm_num; omega
  have f3 : a % 2 ^ 16 = a' % 2 ^ 16 := by
    refine toHexNibbles_inj ?_ ?_ e3 <;>
      · norm_num; omega
  have f4 : b >>> 48 = b' >>> 48 := by
    refine toHexNibbles_inj ?_ ?_ e4 <;>
      · rw [Nat.shiftRight_eq_div_pow]; norm_num; omega
  have f5 : b % 2 ^ 48 = b' % 2 ^ 48 := by
    refine toHexNibbles_inj ?_ ?_ e5 <;>
      · norm_num; omega
  rw [Nat.shiftRight_eq_div_pow] at f1 f4
  rw [Nat.shiftRight_eq_div_pow] at f2
  constructor <;> omega

end UuidLemmas

/-- The id stored in the recording object of a document. -/
def recordingIdOf (doc : Json) : Option Json :=
  (doc.getOrNull "recording").find? "id"

/-- C4: `Start` on an active session returns false and leaves the
session and disk untouched; after `Stop`, a new `Start` (with a
writable file) succeeds and stores the UUID built from the fresh random
draws, which differs from the previous recording id whenever the fresh
draws differ from the old ones in the bits retained by the version and
variant masking. -/
theorem start_inactive_only_and_restart_fresh_id
    (st : RecordingSession × Disk) (name2 : String) (env : StartEnv)
    (ra rb : Nat) (stopOk : Bool)
    (hact : st.1.active = true)
    (hid : recordingIdOf st.1.recordingJson =
      some (.str (GenerateUuidV4 ra rb)))
    (hopen : env.openOk = true)
    (hfresh : uuidMaskA (env.uuidA % 2 ^ 64) ≠ uuidMaskA (ra % 2 ^ 64) ∨
              uuidMaskB (env.uuidB % 2 ^ 64) ≠ uuidMaskB (rb % 2 ^ 64)) :
    (∀ name0 env0, RecordingSession.Start st name0 env0 = (false, st)) ∧
    (RecordingSession.Start (RecordingSession.Stop st stopOk) name2 env).1 =
      true ∧
    recordingIdOf
        (RecordingSession.Start (RecordingSession.Stop st stopOk) name2
          env).2.1.recordingJson =
      some (.str (GenerateUuidV4 env.uuidA env.uuidB)) ∧
    recordingIdOf
        (RecordingSession.Start (RecordingSession.Stop st stopOk) name2
          env).2.1.recordingJson ≠
      recordingIdOf st.1.recordingJson := by
  have hnew : recordingIdOf
      (RecordingSession.Start (RecordingSession.Stop st stopOk) name2
        env).2.1.recordingJson =
      some (.str (GenerateUuidV4 env.uuidA env.uuidB)) := by
    simp [RecordingSession.Start, RecordingSession.Stop, hact, hopen,
          recordingIdOf, Json.getOrNull, Json.find?, lookupField]
  refine ⟨?_, ?_, hnew, ?_⟩
  · intro name0 env0
    simp [RecordingSession.Start, hact]
  · simp [RecordingSession.Start, RecordingSession.Stop, hact, hopen]
  · rw [hnew, hid]
    intro h
    rcases GenerateUuidV4_inj (Json.str.inj (Option.some.inj h)) with ⟨hA, hB⟩
    cases hfresh with
    | inl hna => exact hna hA
    | inr hnb => exact hnb hB

/-- A second start environment with a different first random draw. -/
def envB : StartEnv :=
  ⟨"2025-01-02T00:00:00Z", "2025-01-02T00:00:00Z", 1, 0, true, 500⟩

/-- Witness for C4 at the concrete demo session. -/
theorem start_inactive_only_and_restart_fresh_id_witness :
    RecordingSession.Start demoStarted.2 "X" demoEnv =
      (false, demoStarted.2) ∧
    (RecordingSession.Start (RecordingSession.Stop demoStarted.2 true) "Run2"
        envB).1 = true ∧
    recordingIdOf
        (RecordingSession.Start (RecordingSession.Stop demoStarted.2 true)
          "Run2" envB).2.1.recordingJson =
      some (.str (GenerateUuidV4 1 0)) ∧
    recordingIdOf
        (RecordingSession.Start (RecordingSession.Stop demoStarted.2 true)
          "Run2" envB).2.1.recordingJson ≠
      recordingIdOf demoStarted.2.1.recordingJson := by
  obtain ⟨h1, h2, h3, h4⟩ :=
    start_inactive_only_and_restart_fresh_id demoStarted.2 "Run2" envB 0 0
      true rfl rfl rfl (Or.inl (by decide))
  exact ⟨h1 "X" demoEnv, h2, h3, h4⟩

section AppendInvariant

theorem lookupField_setField_self (fs : List (String × Json)) (k : String)
    (v : Json) : lookupField (setField fs k v) k = some v := by
  induction fs with
  | nil => simp [setField, lookupField]
  | cons p rest ih =>
    obtain ⟨k0, w⟩ := p
    by_cases h : k0 = k <;> simp [setField, lookupField, h, ih]

theorem lookupField_setField_ne (fs : List (String × Json)) {k k' : String}
    (v : Json) (h : k' ≠ k) :
    lookupField (setField fs k v) k' = lookupField fs k' := by
  induction fs with
  | nil => simp [setField, lookupField, Ne.symm h]
  | cons p rest ih =>
    obtain ⟨k0, w⟩ := p
    by_cases h0 : k0 = k
    · subst h0
      simp [setField, lookupField, Ne.symm h]
    · by_cases h1 : k0 = k' <;> simp [setField, lookupField, h0, h1, h, ih]

/-- Every entry of the list carries its own position, reduced modulo
`2 ^ 32` (the width of the `uint32_t` counter), in its `index`
member. -/
def entriesIndexed (l : List Json) : Prop :=
  ∀ i (h : i < l.length), (l[i]).find? "index" = some (.num (i % 2 ^ 32))

/-- Invariant of an active session between appends: the document is an
object whose `recording` member is an object whose `events` member is
the array `l`, the 32-bit next-index register holds the number of
events modulo `2 ^ 32`, every event carries its (wrapped) position, and
the disk copy at the session file path is the current document. -/
def SessionInv (fp : String) (st : RecordingSession × Disk) (l : List Json) :
    Prop :=
  st.1.active = true ∧
  st.1.filePath = fp ∧
  st.1.nextIndex = l.length % 2 ^ 32 ∧
  (∃ fs rfs, st.1.recordingJson = .obj fs ∧
    lookupField fs "recording" = some (.obj rfs) ∧
    lookupField rfs "events" = some (.arr l)) ∧
  entriesIndexed l ∧
  diskRead st.2 fp = some st.1.recordingJson

/-- State shape right after a successful `Start`: as `SessionInv`, but
the recording object has no `events` member yet (it has `steps`). -/
def StartShape (fp : String) (st : RecordingSession × Disk) : Prop :=
  st.1.active = true ∧
  st.1.filePath = fp ∧
  st.1.nextIndex = 0 ∧
  (∃ fs rfs, st.1.recordingJson = .obj fs ∧
    lookupField fs "recording" = some (.obj rfs) ∧
    lookupField rfs "events" = none) ∧
  diskRead st.2 fp = some st.1.recordingJson

/-- The initial document a successful `Start` builds. -/
def startDocFor (s : RecordingSession) (name : String) (env : StartEnv) :
    Json :=
  .obj [("version", .num 1),
        ("recording", .obj
          [("id", .str (GenerateUuidV4 env.uuidA env.uuidB)),
           ("name", .str name),
           ("createdAt", .str env.nowIsoCreated),
           ("browser", .str s.solution.selectedBrowser),
           ("baseUrl", .str s.solution.baseUrl),
           ("steps", .arr [])])]

/-- The file path a `Start` call synthesizes. -/
def startPathFor (s : RecordingSession) (name : String) (env : StartEnv) :
    String :=
  pathAppend s.solution.GetRecordingsDirectory
    (name ++ "_" ++ env.nowIsoFilename ++ ".wwrec")

theorem start_result (s : RecordingSession) (disk : Disk) (name : String)
    (env : StartEnv) (hidle : s.active = false) (hopen : env.openOk = true) :
    RecordingSession.Start (s, disk) name env =
      (true,
       { s with
          active := true,
          filePath := startPathFor s name env,
          recordingJson := startDocFor s name env,
          nextIndex := 0,
          startTime := env.clockNow },
       diskWrite disk (startPathFor s name env) (startDocFor s name env)) := by
  simp [RecordingSession.Start, hidle, hopen, startPathFor, startDocFor]

theorem start_establishes_shape (s : RecordingSession) (disk : Disk)
    (name : String) (env : StartEnv) (hidle : s.active = false)
    (hopen : env.openOk = true) :
    (RecordingSession.Start (s, disk) name env).1 = true ∧
    StartShape (RecordingSession.Start (s, disk) name env).2.1.filePath
      (RecordingSession.Start (s, disk) name env).2 := by
  rw [start_result s disk name env hidle hopen]
  refine ⟨rfl, rfl, rfl, rfl, ?_, ?_⟩
  · refine ⟨_, [("id", .str (GenerateUuidV4 env.uuidA env.uuidB)),
        ("name", .str name),
        ("createdAt", .str env.nowIsoCreated),
        ("browser", .str s.solution.selectedBrowser),
        ("baseUrl", .str s.solution.baseUrl),
        ("steps", .arr [])], rfl, ?_, ?_⟩
    · simp [startDocFor, lookupField]
    · simp [lookupField]
  · simp [diskRead, diskWrite, lookupField_setField_self]

theorem appendEventToDoc_events_arr {fs rfs : List (String × Json)}
    {l : List Json} (ev : Json)
    (hrec : lookupField fs "recording" = some (.obj rfs))
    (hev : lookupField rfs "events" = some (.arr l)) :
    appendEventToDoc (.obj fs) ev =
      some (.obj (setField fs "recording"
        (.obj (setField rfs "events" (.arr (l ++ [ev])))))) := by
  simp [appendEventToDoc, hrec, hev, Json.pushBack]

theorem appendEventToDoc_events_none {fs rfs : List (String × Json)}
    (ev : Json)
    (hrec : lookupField fs "recording" = some (.obj rfs))
    (hev : lookupField rfs "events" = none) :
    appendEventToDoc (.obj fs) ev =
      some (.obj (setField fs "recording"
        (.obj (setField rfs "events" (.arr [ev]))))) := by
  simp [appendEventToDoc, hrec, hev, Json.pushBack]

theorem appendEvent_result (st : RecordingSession × Disk) (inp : AppendInput)
    (doc : Json) (hact : st.1.active = true)
    (hdoc : appendEventToDoc st.1.recordingJson (eventJsonFor st.1 inp) =
      some doc) :
    RecordingSession.AppendEvent st inp =
      some ({ st.1 with
                recordingJson := doc,
                nextIndex := (st.1.nextIndex + 1) % 2 ^ 32 },
            if inp.openOk then diskWrite st.2 st.1.filePath doc else st.2) := by
  simp [RecordingSession.AppendEvent, hact, hdoc]

theorem appendEvent_preserves_inv (fp : String) (st : RecordingSession × Disk)
    (l : List Json) (inp : AppendInput) (hinv : SessionInv fp st l)
    (hok : inp.openOk = true) :
    ∃ st', RecordingSession.AppendEvent st inp = some st' ∧
      SessionInv fp st' (l ++ [eventJsonFor st.1 inp]) := by
  obtain ⟨hact, hfp, hidx, ⟨fs, rfs, hdoceq, hrec, hev⟩, hind, hdisk⟩ := hinv
  have hstep : appendEventToDoc st.1.recordingJson (eventJsonFor st.1 inp) =
      some (.obj (setField fs "recording"
        (.obj (setField rfs "events"
          (.arr (l ++ [eventJsonFor st.1 inp])))))) := by
    rw [hdoceq]
    exact appendEventToDoc_events_arr _ hrec hev
  refine ⟨_, appendEvent_result st inp _ hact hstep, ?_, ?_, ?_, ?_, ?_, ?_⟩
  · exact hact
  · exact hfp
  · rw [hidx]
    simp only [List.length_append, List.length_cons, List.length_nil]
    omega
  · exact ⟨_, setField rfs "events" (.arr (l ++ [eventJsonFor st.1 inp])),
      rfl, lookupField_setField_self _ _ _, lookupField_setField_self _ _ _⟩
  · intro i h
    by_cases hi : i < l.length
    · rw [List.getElem_append_left hi]
      exact hind i hi
    · have hlen : i < l.length + 1 := by
        simpa using h
      have hieq : i = l.length := by omega
      subst hieq
      rw [List.getElem_concat_length]
      · simp [eventJsonFor, Json.find?, lookupField]
        omega
      · rfl
  · rw [hok]
    simp only [if_true]
    rw [hfp]
    simp [diskRead, diskWrite, lookupField_setField_self]

theorem appendEvent_first (fp : String) (st : RecordingSession × Disk)
    (inp : AppendInput) (hshape : StartShape fp st) (hok : inp.openOk = true) :
    ∃ st', RecordingSession.AppendEvent st inp = some st' ∧
      SessionInv fp st' [eventJsonFor st.1 inp] := by
  obtain ⟨hact, hfp, hidx, ⟨fs, rfs, hdoceq, hrec, hev⟩, hdisk⟩ := hshape
  have hstep : appendEventToDoc st.1.recordingJson (eventJsonFor st.1 inp) =
      some (.obj (setField fs "recording"
        (.obj (setField rfs "events" (.arr [eventJsonFor st.1 inp]))))) := by
    rw [hdoceq]
    exact appendEventToDoc_events_none _ hrec hev
  refine ⟨_, appendEvent_result st inp _ hact hstep, ?_, ?_, ?_, ?_, ?_, ?_⟩
  · exact hact
  · exact hfp
  · simp [hidx]
  · exact ⟨_, setField rfs "events" (.arr [eventJsonFor st.1 inp]),
      rfl, lookupField_setField_self _ _ _, lookupField_setField_self _ _ _⟩
  · intro i h
    have hieq : i = 0 := by
      simp at h
      omega
    subst hieq
    simp [eventJsonFor, Json.find?, lookupField, hidx]
  · rw [hok]
    simp only [if_true]
    rw [hfp]
    simp [diskRead, diskWrite, lookupField_setField_self]

theorem appendEvents_preserves_inv (inputs : List AppendInput) (fp : String)
    (st : RecordingSession × Disk) (l : List Json) (hinv : SessionInv fp st l)
    (hoks : ∀ inp ∈ inputs, inp.openOk = true) :
    ∃ st' l2, appendEvents st inputs = some st' ∧ l2.length = inputs.length ∧
      SessionInv fp st' (l ++ l2) := by
  induction inputs generalizing st l with
  | nil => exact ⟨st, [], rfl, rfl, by simpa using hinv⟩
  | cons inp rest ih =>
    obtain ⟨st1, heq1, hinv1⟩ :=
      appendEvent_preserves_inv fp st l inp hinv (hoks inp (by simp))
    obtain ⟨st2, l2, heq2, hlen, hinv2⟩ :=
      ih st1 (l ++ [eventJsonFor st.1 inp]) hinv1
        (fun i hi => hoks i (by simp [hi]))
    refine ⟨st2, eventJsonFor st.1 inp :: l2, ?_, by simp [hlen], ?_⟩
    · simp [appendEvents, heq1, heq2]
    · simpa [List.append_assoc] using hinv2

theorem stop_keeps_persisted_doc (fp : String) (st : RecordingSession × Disk)
    (l : List Json) (stopOk : Bool) (hinv : SessionInv fp st l) :
    (RecordingSession.Stop st stopOk).1.filePath = fp ∧
    (RecordingSession.Stop st stopOk).1.recordingJson = st.1.recordingJson ∧
    diskRead (RecordingSession.Stop st stopOk).2 fp =
      some st.1.recordingJson := by
  obtain ⟨hact, hfp, _, _, _, hdisk⟩ := hinv
  refine ⟨?_, ?_, ?_⟩
  · simp [RecordingSession.Stop, hact, hfp]
  · simp [RecordingSession.Stop, hact]
  · cases stopOk with
    | false => simpa [RecordingSession.Stop, hact] using hdisk
    | true =>
      simp [RecordingSession.Stop, hact, hfp, diskRead, diskWrite,
            lookupField_setField_self]

/-- The complete run the claim describes: `Start`, a list of
`AppendEvent` calls, then `Stop`. -/
def runRecording (s : RecordingSession) (disk : Disk) (name : String)
    (env : StartEnv) (appends : List AppendInput) (stopOk : Bool) :
    Option (RecordingSession × Disk) :=
  (appendEvents (RecordingSession.Start (s, disk) name env).2 appends).map
    (fun st => RecordingSession.Stop st stopOk)

/-- The document persisted at the session file path after a run. -/
def persistedDocAfterRun (s : RecordingSession) (disk : Disk) (name : String)
    (env : StartEnv) (appends : List AppendInput) (stopOk : Bool) :
    Option Json :=
  (runRecording s disk name env appends stopOk).bind
    (fun st => diskRead st.2 st.1.filePath)

/-- The list under the recording object's `events` member, when it is
an array. -/
def eventsArrayOf (doc : Json) : Option (List Json) :=
  match (doc.getOrNull "recording").find? "events" with
  | some (.arr l) => some l
  | _ => none

/-- The events persisted by a run. -/
def eventsOfRun (s : RecordingSession) (disk : Disk) (name : String)
    (env : StartEnv) (appends : List AppendInput) (stopOk : Bool) :
    Option (List Json) :=
  (persistedDocAfterRun s disk name env appends stopOk).bind eventsArrayOf

/-- The `index` member of each entry, in array order. -/
def indexFields (l : List Json) : List (Option Json) :=
  l.map (fun e => Json.find? e "index")

/-- The index sequence the claim requires: `some 0, ..., some (n-1)`. -/
def expectedIndexList (n : Nat) : List (Option Json) :=
  (List.range n).map (fun (i : Nat) => some (.num i))

/-- The index sequence the 32-bit counter actually produces: position
`i` carries `i` modulo `2 ^ 32`. -/
def wrappedIndexList (n : Nat) : List (Option Json) :=
  (List.range n).map (fun (i : Nat) => some (.num (i % 2 ^ 32)))

theorem indexFields_of_entriesIndexed (l : List Json) (h : entriesIndexed l) :
    indexFields l = wrappedIndexList l.length := by
  apply List.ext_getElem
  · simp only [indexFields, wrappedIndexList, List.length_map,
               List.length_range]
  · intro i h1 h2
    have hi : i < l.length := by
      simpa [indexFields] using h1
    simp only [indexFields, wrappedIndexList, List.getElem_map,
               List.getElem_range]
    exact h i hi

theorem wrappedIndexList_eq_expected (n : Nat) (h : n ≤ 2 ^ 32) :
    wrappedIndexList n = expectedIndexList n := by
  unfold wrappedIndexList expectedIndexList
  apply List.map_congr_left
  intro i hi
  have hlt : i < n := List.mem_range.mp hi
  have hmod : (i : Int) % 2 ^ 32 = (i : Int) := by omega
  rw [hmod]

/-- C1 (amended): a successful `Start` followed by `N ≥ 1`
`AppendEvent` calls (all while active, all with a writable file) and
`Stop` persists a document whose recording object holds an `events`
array with exactly `N` entries whose `index` members are the positions
reduced modulo `2 ^ 32` — the `uint32_t nextIndex_` counter wraps — so
they are exactly `0, 1, ..., N-1` in array order whenever
`N ≤ 2 ^ 32`.  For `N = 0` the persisted document has no `events`
member at all, because `Start` names the initial empty array `steps`
rather than `events`. -/
theorem run_events_indexed_gapless
    (s : RecordingSession) (disk : Disk) (name : String) (env : StartEnv)
    (inp0 : AppendInput) (rest : List AppendInput) (stopOk : Bool)
    (hidle : s.active = false) (hopen : env.openOk = true)
    (h0 : inp0.openOk = true) (hrest : ∀ inp ∈ rest, inp.openOk = true) :
    (RecordingSession.Start (s, disk) name env).1 = true ∧
    (eventsOfRun s disk name env (inp0 :: rest) stopOk).isSome = true ∧
    ((eventsOfRun s disk name env (inp0 :: rest) stopOk).getD []).length =
      rest.length + 1 ∧
    indexFields ((eventsOfRun s disk name env (inp0 :: rest) stopOk).getD [])
      = wrappedIndexList (rest.length + 1) ∧
    (rest.length + 1 ≤ 2 ^ 32 →
      indexFields
          ((eventsOfRun s disk name env (inp0 :: rest) stopOk).getD [])
        = expectedIndexList (rest.length + 1)) := by
  obtain ⟨hok, hshape⟩ := start_establishes_shape s disk name env hidle hopen
  obtain ⟨st1, heq1, hinv1⟩ :=
    appendEvent_first _ (RecordingSession.Start (s, disk) name env).2 inp0
      hshape h0
  obtain ⟨st2, l2, heq2, hlen2, hinv2⟩ :=
    appendEvents_preserves_inv rest _ st1 _ hinv1 hrest
  obtain ⟨hfp2, hjson2, hread2⟩ :=
    stop_keeps_persisted_doc _ st2 _ stopOk hinv2
  obtain ⟨hact2, hfp2b, hidx2, ⟨fs, rfs, hdoceq, hrec, hev⟩, hind2, hdisk2⟩ :=
    hinv2
  have hrun : runRecording s disk name env (inp0 :: rest) stopOk =
      some (RecordingSession.Stop st2 stopOk) := by
    simp [runRecording, appendEvents, heq1, heq2]
  have harr : eventsArrayOf st2.1.recordingJson =
      some (eventJsonFor (RecordingSession.Start (s, disk) name env).2.1 inp0
        :: l2) := by
    rw [hdoceq]
    simp [eventsArrayOf, Json.getOrNull, Json.find?, hrec, hev]
  have hevents : eventsOfRun s disk name env (inp0 :: rest) stopOk =
      some (eventJsonFor (RecordingSession.Start (s, disk) name env).2.1 inp0
        :: l2) := by
    simp [eventsOfRun, persistedDocAfterRun, hrun, hfp2, hread2, harr]
  have hind3 : entriesIndexed
      (eventJsonFor (RecordingSession.Start (s, disk) name env).2.1 inp0
        :: l2) := by
    simpa using hind2
  have hwrap : indexFields
      ((eventsOfRun s disk name env (inp0 :: rest) stopOk).getD [])
      = wrappedIndexList (rest.length + 1) := by
    rw [hevents]
    simp only [Option.getD_some]
    rw [indexFields_of_entriesIndexed _ hind3]
    simp [hlen2]
  refine ⟨hok, ?_, ?_, hwrap, ?_⟩
  · rw [hevents]
    rfl
  · rw [hevents]
    simp [hlen2]
  · intro hN
    rw [hwrap, wrappedIndexList_eq_expected _ hN]

/-- A concrete append input used by the witnesses. -/
def demoAppend : AppendInput :=
  ⟨.DomClick, .obj [("selector", .str "#btn")], 150, true⟩

/-- Witness for C1 with one appended event. -/
theorem run_events_indexed_gapless_witness :
    (RecordingSession.Start (idleSession, ([] : Disk)) "Run1" demoEnv).1 =
      true ∧
    (eventsOfRun idleSession [] "Run1" demoEnv [demoAppend] true).isSome =
      true ∧
    ((eventsOfRun idleSession [] "Run1" demoEnv [demoAppend] true).getD
      []).length = 1 ∧
    indexFields
        ((eventsOfRun idleSession [] "Run1" demoEnv [demoAppend] true).getD
          []) = wrappedIndexList 1 ∧
    indexFields
        ((eventsOfRun idleSession [] "Run1" demoEnv [demoAppend] true).getD
          []) = expectedIndexList 1 := by
  obtain ⟨h1, h2, h3, h4, h5⟩ :=
    run_events_indexed_gapless idleSession [] "Run1" demoEnv demoAppend []
      true rfl rfl rfl (by simp)
  exact ⟨h1, h2, h3, h4, h5 (by norm_num)⟩

theorem appendEventToDoc_events_null {fs rfs : List (String × Json)}
    (ev : Json)
    (hrec : lookupField fs "recording" = some (.obj rfs))
    (hev : lookupField rfs "events" = some .null) :
    appendEventToDoc (.obj fs) ev =
      some (.obj (setField fs "recording"
        (.obj (setField rfs "events" (.arr [ev]))))) := by
  simp [appendEventToDoc, hrec, hev, Json.pushBack]

/-- C10: one `AppendEvent` call on an active session only extends the
`events` member of the recording object by one element and rewrites the
file: the whole top level except `recording` (so in particular
`version`), and every member of the recording object except `events`
(so `id`, `name`, `createdAt`, `browser`, `baseUrl` and `steps`), look
up identically before and after. -/
theorem appendEvent_frame
    (st : RecordingSession × Disk) (inp : AppendInput)
    (fs rfs : List (String × Json))
    (hact : st.1.active = true) (hok : inp.openOk = true)
    (hdoceq : st.1.recordingJson = .obj fs)
    (hrec : lookupField fs "recording" = some (.obj rfs))
    (hev : lookupField rfs "events" = none ∨
           lookupField rfs "events" = some .null ∨
           ∃ l, lookupField rfs "events" = some (.arr l)) :
    ∃ st' fs' rfs',
      RecordingSession.AppendEvent st inp = some st' ∧
      st'.1.recordingJson = .obj fs' ∧
      lookupField fs' "recording" = some (.obj rfs') ∧
      (∀ k, k ≠ "recording" → lookupField fs' k = lookupField fs k) ∧
      (∀ k, k ≠ "events" → lookupField rfs' k = lookupField rfs k) ∧
      lookupField rfs' "events" =
        some (.arr ((match lookupField rfs "events" with
                     | some (.arr l) => l
                     | _ => []) ++ [eventJsonFor st.1 inp])) ∧
      st'.2 = diskWrite st.2 st.1.filePath (.obj fs') := by
  have main : ∀ newEvs : List Json,
      appendEventToDoc st.1.recordingJson (eventJsonFor st.1 inp) =
        some (.obj (setField fs "recording"
          (.obj (setField rfs "events" (.arr newEvs))))) →
      ∃ st' fs' rfs',
        RecordingSession.AppendEvent st inp = some st' ∧
        st'.1.recordingJson = .obj fs' ∧
        lookupField fs' "recording" = some (.obj rfs') ∧
        (∀ k, k ≠ "recording" → lookupField fs' k = lookupField fs k) ∧
        (∀ k, k ≠ "events" → lookupField rfs' k = lookupField rfs k) ∧
        lookupField rfs' "events" = some (.arr newEvs) ∧
        st'.2 = diskWrite st.2 st.1.filePath (.obj fs') := by
    intro newEvs hstep
    refine ⟨_, setField fs "recording"
        (.obj (setField rfs "events" (.arr newEvs))),
      setField rfs "events" (.arr newEvs),
      appendEvent_result st inp _ hact hstep, rfl,
      lookupField_setField_self _ _ _,
      fun k hk => lookupField_setField_ne _ _ hk,
      fun k hk => lookupField_setField_ne _ _ hk,
      lookupField_setField_self _ _ _, ?_⟩
    simp [hok]
  rcases hev with hno | hnull | ⟨l, harr⟩
  · have := main [eventJsonFor st.1 inp]
      (by rw [hdoceq]; exact appendEventToDoc_events_none _ hrec hno)
    simpa [hno] using this
  · have := main [eventJsonFor st.1 inp]
      (by rw [hdoceq]; exact appendEventToDoc_events_null _ hrec hnull)
    simpa [hnull] using this
  · have := main (l ++ [eventJsonFor st.1 inp])
      (by rw [hdoceq]; exact appendEventToDoc_events_arr _ hrec harr)
    simpa [harr] using this

section StateController

/-- `StudioState` from StudioStateController.h (the spec calls
`NoProject`/`ProjectLoaded` `NoSolution`/`SolutionLoaded`). -/
inductive StudioState where
  | NoProject
  | ProjectLoaded
  | RecordingRunning
  | RecordingPaused
  | Inspecting
  deriving DecidableEq

/-- The controller: its current state plus the log of state-change
notifications delivered to the registered callback. -/
structure ControllerState where
  state : StudioState
  notifications : List StudioState
  deriving DecidableEq

/-- `StudioStateController::SetState` (lines 33-41): identical state is
a no-op with no notification; otherwise the state changes and the
callback fires once with the new state. -/
def SetState (c : ControllerState) (newState : StudioState) :
    ControllerState :=
  if c.state = newState then c
  else ⟨newState, c.notifications ++ [newState]⟩

/-- `StudioStateController::OnInspectorToggle` (lines 64-70): no state
guard at all — `shown` selects the target state unconditionally. -/
def OnInspectorToggle (c : ControllerState) (shown : Bool) :
    ControllerState :=
  if shown then SetState c StudioState.Inspecting
  else SetState c StudioState.ProjectLoaded

/-- `StudioStateController::OnRecordStartStop` (lines 47-54). -/
def OnRecordStartStop (c : ControllerState) : ControllerState :=
  if c.state = StudioState.RecordingRunning ∨
     c.state = StudioState.RecordingPaused then
    SetState c StudioState.ProjectLoaded
  else if c.state = StudioState.ProjectLoaded then
    SetState c StudioState.RecordingRunning
  else c

/-- `StudioStateController::OnRecordPause` (lines 56-62). -/
def OnRecordPause (c : ControllerState) : ControllerState :=
  if c.state = StudioState.RecordingRunning then
    SetState c StudioState.RecordingPaused
  else if c.state = StudioState.RecordingPaused then
    SetState c StudioState.RecordingRunning
  else c

/-- C6 counterexample: from `NoProject` (the spec's `NoSolution`),
`InspectorToggle(true)` is not a no-op — the state becomes `Inspecting`
and one change notification fires. -/
theorem inspector_toggle_from_noproject_not_noop :
    OnInspectorToggle ⟨StudioState.NoProject, []⟩ true =
      ⟨StudioState.Inspecting, [StudioState.Inspecting]⟩ ∧
    OnInspectorToggle ⟨StudioState.NoProject, []⟩ true ≠
      ⟨StudioState.NoProject, []⟩ := by
  exact ⟨rfl, by decide⟩

/-- C6 amended: `OnInspectorToggle` has no state guard.  With
`shown = true` it drives every state to `Inspecting` (firing exactly
one notification), and is a no-op only when the state already is
`Inspecting`; with `shown = false` it likewise drives every state to
`ProjectLoaded`. -/
theorem inspector_toggle_unguarded (c : ControllerState) (shown : Bool) :
    (OnInspectorToggle c shown).state =
      (if shown then StudioState.Inspecting else StudioState.ProjectLoaded) ∧
    (c.state =
        (if shown then StudioState.Inspecting
         else StudioState.ProjectLoaded) →
      OnInspectorToggle c shown = c) ∧
    (c.state ≠
        (if shown then StudioState.Inspecting
         else StudioState.ProjectLoaded) →
      (OnInspectorToggle c shown).notifications =
        c.notifications ++
          [if shown then StudioState.Inspecting
           else StudioState.ProjectLoaded]) := by
  cases shown with
  | false =>
    by_cases h : c.state = StudioState.ProjectLoaded <;>
      simp [OnInspectorToggle, SetState, h]
  | true =>
    by_cases h : c.state = StudioState.Inspecting <;>
      simp [OnInspectorToggle, SetState, h]

/-- Witness for C6 amended, from the `NoProject` state. -/
theorem inspector_toggle_unguarded_witness :
    (OnInspectorToggle ⟨StudioState.NoProject, []⟩ true).state =
      StudioState.Inspecting ∧
    (StudioState.NoProject ≠ StudioState.Inspecting →
      (OnInspectorToggle ⟨StudioState.NoProject, []⟩ true).notifications =
        [StudioState.Inspecting]) := by
  obtain ⟨h1, h2, h3⟩ :=
    inspector_toggle_unguarded ⟨StudioState.NoProject, []⟩ true
  exact ⟨h1, fun h => h3 h⟩

end StateController

section RecentSolutions

/-- Range-for iteration over an `nlohmann::json` value: arrays yield
their elements, objects their member values, `null` nothing, and any
other primitive yields itself once. -/
def jsonIterate : Json → List Json
  | .arr xs => xs
  | .obj fs => fs.map (fun p => p.2)
  | .null => []
  | v => [v]

/-- `RecentSolutionsManager::Load` (lines 28-44).  The storage file is
an explicit input: `none` models an absent file (the stream fails to
open), `some none` a present file whose content is not parseable JSON
(`operator>>` throws, and `Load` has no handler), and `some (some j)` a
file parsing to `j`.  The result is the final `recent_` list, or the
exception that escaped. -/
def RecentLoad (file : Option (Option Json)) :
    Except CppException (List String) :=
  match file with
  | none => .ok []
  | some none => .error .parseError
  | some (some j) =>
    if j.containsKey "recentSolutions" then
      (jsonIterate (j.getOrNull "recentSolutions")).mapM Json.getString
    else .ok []

/-- `kMaxRecent` from RecentSolutionsManager.h. -/
def kMaxRecent : Nat := 10

/-- `std::find` followed by `erase`: removes the first occurrence
only. -/
def eraseFirst : List String → String → List String
  | [], _ => []
  | x :: rest, p => if x = p then rest else x :: eraseFirst rest p

/-- `RecentSolutionsManager::AddSolution` (lines 60-72): remove the
path if present, insert at the front, truncate to `kMaxRecent`.  The
trailing `Save()` call persists the list and does not change it, so it
is not part of the list transformation. -/
def AddSolution (l : List String) (p : String) : List String :=
  let l1 := eraseFirst l p
  let l2 := p :: l1
  if l2.length > kMaxRecent then l2.take kMaxRecent else l2

/-- C7 counterexample: a present but unparsable storage file makes
`Load` propagate the parse exception instead of producing the empty
list. -/
theorem recent_load_unparsable_throws :
    RecentLoad (some none) = Except.error CppException.parseError := rfl

/-- C7 amended: `Load` yields the empty list when the storage file is
absent, and also when the file parses but has no `recentSolutions`
member; a file whose content is not parseable JSON instead lets the
parse exception escape (there is no handler in `Load`). -/
theorem recent_load_absent_file_empty_list :
    RecentLoad none = Except.ok [] ∧
    RecentLoad (some none) = Except.error CppException.parseError ∧
    ∀ j : Json, j.containsKey "recentSolutions" = false →
      RecentLoad (some (some j)) = Except.ok [] := by
  refine ⟨rfl, rfl, fun j h => ?_⟩
  simp [RecentLoad, h]

/-- Witness for C7 amended at a parsed empty object. -/
theorem recent_load_absent_file_empty_list_witness :
    Json.containsKey (.obj []) "recentSolutions" = false ∧
    RecentLoad (some (some (.obj []))) = Except.ok [] :=
  ⟨rfl, recent_load_absent_file_empty_list.2.2 (.obj []) rfl⟩

theorem eraseFirst_sublist (l : List String) (p : String) :
    List.Sublist (eraseFirst l p) l := by
  induction l with
  | nil => simp [eraseFirst]
  | cons x rest ih =>
    by_cases h : x = p
    · simp only [eraseFirst, h, if_true]
      exact List.sublist_cons_self p rest
    · simp only [eraseFirst, h, if_false]
      exact ih.cons₂ x

theorem eraseFirst_not_mem (l : List String) (p : String) (hp : p ∉ l) :
    eraseFirst l p = l := by
  induction l with
  | nil => rfl
  | cons x rest ih =>
    simp only [List.mem_cons, not_or] at hp
    simp [eraseFirst, Ne.symm hp.1, ih hp.2]

theorem not_mem_eraseFirst (l : List String) (p : String) (h : l.Nodup) :
    p ∉ eraseFirst l p := by
  induction l with
  | nil => simp [eraseFirst]
  | cons x rest ih =>
    simp at h
    by_cases hx : x = p
    · subst hx
      simpa [eraseFirst] using h.1
    · simp [eraseFirst, hx, Ne.symm hx]
      exact ih h.2

theorem addSolution_fresh (l : List String) (p : String) (hp : p ∉ l) :
    AddSolution l p = (p :: l).take kMaxRecent := by
  unfold AddSolution
  rw [eraseFirst_not_mem l p hp]
  by_cases h : (p :: l).length > kMaxRecent
  · simp [h]
  · simp only [h, if_false]
    exact (List.take_of_length_le (by omega)).symm

theorem foldl_addSolution (ps : List String) (done : List String)
    (h : (done ++ ps).Nodup) :
    List.foldl AddSolution (done.reverse.take kMaxRecent) ps =
      ((done ++ ps).reverse).take kMaxRecent := by
  induction ps generalizing done with
  | nil => simp
  | cons p rest ih =>
    have hmem : p ∉ done := by
      have hdisj := (List.nodup_append.mp h).2.2
      exact fun hd => hdisj hd (List.mem_cons_self p rest)
    have hfresh : p ∉ done.reverse.take kMaxRecent := by
      intro hd
      exact hmem (by simpa using (List.take_subset _ _ hd))
    have hstep : AddSolution (done.reverse.take kMaxRecent) p =
        ((done ++ [p]).reverse).take kMaxRecent := by
      rw [addSolution_fresh _ _ hfresh]
      rw [List.reverse_append]
      simp only [List.reverse_cons, List.reverse_nil, List.nil_append,
                 List.singleton_append]
      rw [show kMaxRecent = 9 + 1 from rfl, List.take_succ_cons,
          List.take_succ_cons, List.take_take]
      norm_num
    rw [List.foldl_cons, hstep]
    have hrest : ((done ++ [p]) ++ rest).Nodup := by simpa using h
    have := ih (done ++ [p]) hrest
    simpa using this

theorem addSolution_nodup (l : List String) (p : String) (h : l.Nodup) :
    (AddSolution l p).Nodup := by
  have h2 : (p :: eraseFirst l p).Nodup := by
    rw [List.nodup_cons]
    exact ⟨not_mem_eraseFirst l p h, (eraseFirst_sublist l p).nodup h⟩
  by_cases hlen : (p :: eraseFirst l p).length > kMaxRecent
  · have he : AddSolution l p = (p :: eraseFirst l p).take kMaxRecent := by
      simp [AddSolution, hlen]
    rw [he]
    exact (List.take_sublist _ _).nodup h2
  · have he : AddSolution l p = p :: eraseFirst l p := by
      simp [AddSolution]
      simp only [List.length_cons, gt_iff_lt, not_lt] at hlen
      omega
    rw [he]
    exact h2

theorem addSolution_length_le (l : List String) (p : String) :
    (AddSolution l p).length ≤ kMaxRecent := by
  by_cases hlen : (p :: eraseFirst l p).length > kMaxRecent
  · have he : AddSolution l p = (p :: eraseFirst l p).take kMaxRecent := by
      simp [AddSolution, hlen]
    rw [he]
    simp [List.length_take]
  · have he : AddSolution l p = p :: eraseFirst l p := by
      simp [AddSolution]
      simp only [List.length_cons, gt_iff_lt, not_lt] at hlen
      omega
    rw [he]
    simp only [kMaxRecent, gt_iff_lt, not_lt] at hlen
    exact hlen

/-- C8 counterexample: from the nonempty state `["a"]`, adding the same
path twice in succession yields a two-element list, not a list of
length 1 — the claim holds only from the empty list. -/
theorem add_same_path_twice_from_nonempty_state :
    AddSolution (AddSolution ["a"] "b") "b" = ["b", "a"] ∧
    (AddSolution (AddSolution ["a"] "b") "b").length ≠ 1 := by
  exact ⟨rfl, by decide⟩

/-- C8 amended: starting from the empty list, adding the same path
twice yields the one-element list with that path; starting from the
empty list, adding any duplicate-free sequence of paths keeps exactly
the `kMaxRecent` most recently added, most recent first (so 11 distinct
adds keep the last 10); and from any duplicate-free list the result of
an add is duplicate-free and never exceeds `kMaxRecent` entries. -/
theorem recent_add_mru_bounded :
    (∀ p : String, AddSolution (AddSolution [] p) p = [p]) ∧
    (∀ ps : List String, ps.Nodup →
      List.foldl AddSolution [] ps = ps.reverse.take kMaxRecent) ∧
    (∀ (l : List String) (p : String), l.Nodup → (AddSolution l p).Nodup) ∧
    (∀ (l : List String) (p : String),
      (AddSolution l p).length ≤ kMaxRecent) := by
  refine ⟨?_, ?_, addSolution_nodup, addSolution_length_le⟩
  · intro p
    simp [AddSolution, eraseFirst, kMaxRecent]
  · intro ps h
    have hfold := foldl_addSolution ps [] (by simpa using h)
    simpa using hfold

/-- Witness for C8 amended: a double add from empty, eleven distinct
adds keeping the ten most recent, and a single add from a one-element
list. -/
theorem recent_add_mru_bounded_witness :
    AddSolution (AddSolution [] "x") "x" = ["x"] ∧
    List.foldl AddSolution []
        ["p1", "p2", "p3", "p4", "p5", "p6", "p7", "p8", "p9", "p10",
         "p11"] =
      ["p11", "p10", "p9", "p8", "p7", "p6", "p5", "p4", "p3", "p2"] ∧
    (AddSolution ["a"] "b").Nodup ∧
    (AddSolution ["a"] "b").length ≤ kMaxRecent := by
  obtain ⟨h1, h2, h3, h4⟩ := recent_add_mru_bounded
  refine ⟨h1 "x", ?_, h3 ["a"] "b" (by decide), h4 ["a"] "b"⟩
  rw [h2 ["p1", "p2", "p3", "p4", "p5", "p6", "p7", "p8", "p9", "p10",
          "p11"] (by decide)]
  rfl

end RecentSolutions

section SolutionErrors

/-- The most specific load error for a solution JSON value, following
the precedence order stated by the specification: structural
malformation, then missing version, then version type, then
unsupported version, then missing solution object, then missing
required field.  This is the specification-side classifier that
`FromJson` is compared against.  A version counts as supported exactly
when its low 32 bits read as 1, mirroring the `get<int>` narrowing the
code performs before comparing with 1. -/
def specSolutionLoadError (j : Json) : SolutionLoadError :=
  if ¬ j.isObj then .FileMalformed
  else if ¬ j.containsKey "version" then .MissingVersion
  else if ¬ (j.getOrNull "version").isInt then .FileMalformed
  else if (j.getOrNull "version").asIntD % 2 ^ 32 ≠ 1 then .UnsupportedVersion
  else if ¬ (j.containsKey "solution" ∧ (j.getOrNull "solution").isObj) then
    .MissingSolutionObject
  else if ¬ ((j.getOrNull "solution").containsKey "solutionName" ∧
             (j.getOrNull "solution").containsKey "solutionDirectory" ∧
             (j.getOrNull "solution").containsKey
               "solutionDirectoryCreated" ∧
             (j.getOrNull "solution").containsKey "baseUrl" ∧
             (j.getOrNull "solution").containsKey "browser") then
    .MissingRequiredField
  else .None

/-- A solution document with every structural check satisfied but a
required field (`solutionName`) of the wrong type. -/
def badTypedSolutionJson : Json :=
  .obj [("version", .num 1),
        ("solution", .obj
          [("solutionName", .num 42),
           ("solutionDirectory", .str "d"),
           ("solutionDirectoryCreated", .bool true),
           ("baseUrl", .str "u"),
           ("browser", .str "b")])]

/-- C2 counterexample: on a document whose only defect is a present
required field of the wrong type, `FromJson` does not return a typed
error — the `get<std::string>` call throws, and the exception
propagates (no precedence check classifies this input). -/
theorem fromjson_wrong_typed_field_throws :
    specSolutionLoadError badTypedSolutionJson = SolutionLoadError.None ∧
    StudioSolution.FromJson badTypedSolutionJson =
      Except.error CppException.typeError := ⟨rfl, rfl⟩

/-- A well-formed solution document whose version is `2 ^ 32 + 1`:
the `get<int>` narrowing reads it as version 1. -/
def versionWrapSolutionJson : Json :=
  .obj [("version", .num 4294967297),
        ("solution", .obj
          [("solutionName", .str "n"),
           ("solutionDirectory", .str "d"),
           ("solutionDirectoryCreated", .bool true),
           ("baseUrl", .str "u"),
           ("browser", .str "b")])]

/-- C2 amended: for every invalid solution JSON of the kinds the claim
lists except a wrong-typed present required field — not an object,
missing version, non-integer version, a version whose low 32 bits do
not read as 1, missing or non-object solution member, missing required
field — `FromJson` returns no solution together with exactly the most
specific typed error in the stated precedence order, and does not
throw.  A version congruent to 1 modulo `2 ^ 32`, such as 4294967297,
is accepted as version 1 because `get<int>` silently narrows the stored
integer (second conjunct); a wrong-typed present required field makes
`FromJson` throw instead (the counterexample). -/
theorem fromjson_invalid_typed_error (j : Json)
    (h : specSolutionLoadError j ≠ SolutionLoadError.None) :
    StudioSolution.FromJson j =
      Except.ok ⟨none, specSolutionLoadError j⟩ ∧
    StudioSolution.FromJson versionWrapSolutionJson =
      Except.ok ⟨some ⟨"n", "d", true, "u", "b"⟩, SolutionLoadError.None⟩ := by
  refine ⟨?_, rfl⟩
  unfold specSolutionLoadError at h ⊢
  unfold StudioSolution.FromJson
  split_ifs <;> simp_all

/-- Witness for C2 amended: a document that both lacks `version` and
has a malformed `solution` member is classified as `MissingVersion`,
the earlier check in the precedence order; and the wrapped version
4294967297 is accepted. -/
theorem fromjson_invalid_typed_error_witness :
    specSolutionLoadError (.obj [("solution", .str "x")]) =
      SolutionLoadError.MissingVersion ∧
    StudioSolution.FromJson (.obj [("solution", .str "x")]) =
      Except.ok ⟨none, SolutionLoadError.MissingVersion⟩ ∧
    StudioSolution.FromJson versionWrapSolutionJson =
      Except.ok ⟨some ⟨"n", "d", true, "u", "b"⟩, SolutionLoadError.None⟩ := by
  obtain ⟨h1, h2⟩ :=
    fromjson_invalid_typed_error (.obj [("solution", .str "x")]) (by decide)
  exact ⟨rfl, h1, h2⟩

end SolutionErrors

section MetadataParser

/-- `RecordingMetadata` from RecordingMetadata.h; `createdAt` is a
timestamp never assigned by `LoadRecordingMetadata`. -/
structure RecordingMetadata where
  id : String := ""
  name : String := ""
  filePath : String := ""
  createdAt : Nat := 0
  deriving DecidableEq

/-- `StudioSolution::LoadRecordingMetadata` (StudioSolution.cpp lines
209-237), the parser recording discovery runs on every `.wwrec` file.
The parse result is an explicit input: `none` models a file whose read
or parse threw (caught and turned into `nullopt`).  The document must
contain a `recording` object with a string `name`; `id` is optional
and defaults to the empty string; `createdAt` is never read. -/
def LoadRecordingMetadata (parsed : Option Json) (file : String) :
    Option RecordingMetadata :=
  match parsed with
  | none => none
  | some j =>
    match j.find? "recording" with
    | some (.obj rfs) =>
      match lookupField rfs "name" with
      | some (.str nm) =>
        some { id := match lookupField rfs "id" with
                     | some (.str s) => s
                     | _ => "",
               name := nm,
               filePath := file }
      | _ => none
    | _ => none

/-- C9: any JSON document with a `recording` object carrying a string
`name` is accepted — `id` and `createdAt` are not required — and when
the recording object has no `id` member the resulting metadata has the
empty string as id (and when a string `id` is present, that string). -/
theorem load_recording_metadata_lenient
    (j : Json) (rfs : List (String × Json)) (nm file : String)
    (hrec : j.find? "recording" = some (.obj rfs))
    (hname : lookupField rfs "name" = some (.str nm)) :
    ∃ m, LoadRecordingMetadata (some j) file = some m ∧
      m.name = nm ∧ m.filePath = file ∧
      (lookupField rfs "id" = none → m.id = "") ∧
      (∀ v, lookupField rfs "id" = some (.str v) → m.id = v) := by
  refine ⟨{ id := match lookupField rfs "id" with
                  | some (.str s) => s
                  | _ => "",
            name := nm, filePath := file }, ?_, rfl, rfl, ?_, ?_⟩
  · simp [LoadRecordingMetadata, hrec, hname]
  · intro h
    simp [h]
  · intro v h
    simp [h]

/-- Witness for C9: a recording document with only a string name. -/
theorem load_recording_metadata_lenient_witness :
    ∃ m, LoadRecordingMetadata
        (some (.obj [("recording", .obj [("name", .str "Run1")])]))
        "f.wwrec" = some m ∧
      m.name = "Run1" ∧ m.filePath = "f.wwrec" ∧
      (lookupField [("name", Json.str "Run1")] "id" = none → m.id = "") ∧
      (∀ v, lookupField [("name", Json.str "Run1")] "id" =
          some (.str v) → m.id = v) :=
  load_recording_metadata_lenient _ _ _ _ rfl rfl

end MetadataParser

/-- The concrete top-level member list of the demo started document. -/
def demoRfs : List (String × Json) :=
  [("id", .str (GenerateUuidV4 0 0)),
   ("name", .str "Run1"),
   ("createdAt", .str "2025-01-01T00:00:00Z"),
   ("browser", .str "firefox"),
   ("baseUrl", .str "http://example.test"),
   ("steps", .arr [])]

/-- The concrete member list of the demo started recording object. -/
def demoFs : List (String × Json) :=
  [("version", .num 1), ("recording", .obj demoRfs)]

/-- Witness for C10 at the concrete started session and one click
event. -/
theorem appendEvent_frame_witness :
    ∃ st' fs' rfs',
      RecordingSession.AppendEvent demoStarted.2 demoAppend = some st' ∧
      st'.1.recordingJson = .obj fs' ∧
      lookupField fs' "recording" = some (.obj rfs') ∧
      (∀ k, k ≠ "recording" → lookupField fs' k = lookupField demoFs k) ∧
      (∀ k, k ≠ "events" → lookupField rfs' k = lookupField demoRfs k) ∧
      lookupField rfs' "events" =
        some (.arr ((match lookupField demoRfs "events" with
                     | some (.arr l) => l
                     | _ => []) ++ [eventJsonFor demoStarted.2.1 demoAppend]))
        ∧
      st'.2 = diskWrite demoStarted.2.2 demoStarted.2.1.filePath
        (.obj fs') :=
  appendEvent_frame demoStarted.2 demoAppend demoFs demoRfs rfl rfl rfl rfl
    (Or.inl rfl)
